import Mathlib

/-!
Verification of the prepop fixture engine (`prepop/walk.py`, `prepop/core.py`,
`prepop/batch.py`) via a shallow embedding.

Python values that flow through the tree walker are modelled by the mutual
inductive `Val`/`VList`/`VDict`: lists and dicts are the containers the walker
recurses into; tuples stand for any other container (treated by the walker as a
scalar); `fixture i` is a raw `AbstractStorageFixture` instance identified by
`i`; `unresolvable i` is an `UnresolvableFixture` marker wrapping fixture `i`.
Dict keys are arbitrary `Val`s, as in Python.
-/

namespace Prepop

mutual
inductive Val : Type where
  | int (n : Int) : Val
  | str (s : String) : Val
  | fixture (i : Nat) : Val
  | unresolvable (i : Nat) : Val
  | list (elems : VList) : Val
  | tuple (elems : VList) : Val
  | dict (entries : VDict) : Val

inductive VList : Type where
  | nil : VList
  | cons (hd : Val) (tl : VList) : VList

inductive VDict : Type where
  | nil : VDict
  | cons (key : Val) (val : Val) (tl : VDict) : VDict
end

mutual
/-- `walk.py::walks_on_trees`, with its mutually recursive list/dict loops.
The visitor `fn : Val → Option Val` returns `some final` exactly when the
Python visitor returns `TraversalTerminator(final)`; any other return value of
the Python visitor is discarded by the wrapper, which is `none` here. -/
def walks_on_trees (fn : Val → Option Val) : Val → Val
  | .list vs =>
    match fn (.list vs) with
    | some final => final
    | none => .list (walksList fn vs)
  | .dict kvs =>
    match fn (.dict kvs) with
    | some final => final
    | none => .dict (walksDict fn kvs)
  | v =>
    match fn v with
    | some final => final
    | none => v

def walksList (fn : Val → Option Val) : VList → VList
  | .nil => .nil
  | .cons v tl => .cons (walks_on_trees fn v) (walksList fn tl)

def walksDict (fn : Val → Option Val) : VDict → VDict
  | .nil => .nil
  | .cons k v tl => .cons k (walks_on_trees fn v) (walksDict fn tl)
end

mutual
/-- `walks_on_trees` for a visitor that may raise a Python exception: the
visitor returns `Except ε (Option Val)`, where `.error e` is a raised
exception (propagated out of the walk, left-to-right and node-before-children,
exactly as Python unwinds), `.ok (some final)` is `TraversalTerminator(final)`
and `.ok none` is any non-terminator return. On exception-free visitors this
agrees with `walks_on_trees`. -/
def walksE (fn : Val → Except ε (Option Val)) : Val → Except ε Val
  | .list vs =>
    match fn (.list vs) with
    | .error e => .error e
    | .ok (some final) => .ok final
    | .ok none =>
      match walksEList fn vs with
      | .error e => .error e
      | .ok vs1 => .ok (.list vs1)
  | .dict kvs =>
    match fn (.dict kvs) with
    | .error e => .error e
    | .ok (some final) => .ok final
    | .ok none =>
      match walksEDict fn kvs with
      | .error e => .error e
      | .ok kvs1 => .ok (.dict kvs1)
  | v =>
    match fn v with
    | .error e => .error e
    | .ok (some final) => .ok final
    | .ok none => .ok v

def walksEList (fn : Val → Except ε (Option Val)) : VList → Except ε VList
  | .nil => .ok .nil
  | .cons v tl =>
    match walksE fn v with
    | .error e => .error e
    | .ok v1 =>
      match walksEList fn tl with
      | .error e => .error e
      | .ok tl1 => .ok (.cons v1 tl1)

def walksEDict (fn : Val → Except ε (Option Val)) : VDict → Except ε VDict
  | .nil => .ok .nil
  | .cons k v tl =>
    match walksE fn v with
    | .error e => .error e
    | .ok v1 =>
      match walksEDict fn tl with
      | .error e => .error e
      | .ok tl1 => .ok (.cons k v1 tl1)
end

/-- Is this value a raw fixture instance (`isinstance(value, AbstractStorageFixture)`)? -/
def isFixtureVal : Val → Bool
  | .fixture _ => true
  | _ => false

/-- The visitor body of `core.py::_resolve_fixtures_in_data`.  `r i` is what
`resolve_self()` returns for the fixture identified by `i` (for the default
implementation that is `Val.unresolvable i`).  If `resolve_self` itself
returns a fixture instance a `FixtureProgrammingError` is raised, modelled as
`.error ()`; otherwise the resolved value terminates traversal at this node. -/
def resolve_visitor (r : Nat → Val) : Val → Except Unit (Option Val)
  | .fixture i =>
    if isFixtureVal (r i) then .error () else .ok (some (r i))
  | _ => .ok none

/-- `core.py::_resolve_fixtures_in_data`: walk the data, replacing every
visited fixture reference by its `resolve_self()` result. -/
def resolve_fixtures_in_data (r : Nat → Val) (v : Val) : Except Unit Val :=
  walksE (resolve_visitor r) v

/-- The exceptions raised by the scan inside `find_unresolvable_dependency`:
`UnresolvedFixtureError` carrying the wrapped fixture, or
`FixtureProgrammingError` on an unexpected raw fixture instance. -/
inductive ScanErr : Type where
  | unresolvedDep (i : Nat) : ScanErr
  | progError : ScanErr
deriving DecidableEq

/-- The visitor `raise_if_unresolved` inside
`core.py::find_unresolvable_dependency`. -/
def raise_if_unresolved : Val → Except ScanErr (Option Val)
  | .unresolvable i => .error (.unresolvedDep i)
  | .fixture _ => .error .progError
  | _ => .ok none

/-- `core.py::find_unresolvable_dependency`: scan `resolved_data` with
`raise_if_unresolved`; a caught `UnresolvedFixtureError` yields the first
unresolvable fixture, a clean pass yields `none`, and a
`FixtureProgrammingError` (raw fixture in supposedly resolved data)
propagates, modelled as `.error ()`. -/
def find_unresolvable_dependency (v : Val) : Except Unit (Option Nat) :=
  match walksE raise_if_unresolved v with
  | .ok _ => .ok none
  | .error (.unresolvedDep i) => .ok (some i)
  | .error .progError => .error ()

/-- Does this value equal the Python string `field`?  Used for dict key
membership/assignment with a string field name. -/
def isStrKey (field : String) : Val → Bool
  | .str s => s = field
  | _ => false

/-- `self._resolved_data[field] = resolver(self._resolved_data[field])`, guarded
by `if field in self._resolved_data`: apply `g` to the value stored at string
key `field`, leaving the dict unchanged when the key is absent.  Python dict
keys are unique, so updating the first occurrence is exact. -/
def dict_set_apply (field : String) (g : Val → Val) : VDict → VDict
  | .nil => .nil
  | .cons k v tl =>
    if isStrKey field k then .cons k (g v) tl
    else .cons k v (dict_set_apply field g tl)

/-- The field-resolver loop at the end of `core.py::_resolve_data`: for each
registered `(field, resolver)` pair in order, replace the value at `field`
(when present) by the resolver's output.  Only ever reached on dict data. -/
def apply_field_resolvers (frs : List (String × (Val → Val))) : Val → Val
  | .dict d => .dict (frs.foldl (fun acc p => dict_set_apply p.1 p.2 acc) d)
  | v => v

/-- `core.py::_resolve_data`: resolve fixtures in `data`, record the first
unresolvable dependency, and run field resolvers only when there is none.
`r` is the `resolve_self` environment, `frs` the instance's registered field
resolvers.  Returns the pair that the Python code stores into
`_resolved_data` / `_unresolvable_dep`; `.error ()` is a propagating
`FixtureProgrammingError`. -/
def resolve_data (r : Nat → Val) (frs : List (String × (Val → Val))) (d : VDict) :
    Except Unit (Val × Option Nat) :=
  match resolve_fixtures_in_data r (.dict d) with
  | .error _ => .error ()
  | .ok rd =>
    match find_unresolvable_dependency rd with
    | .error _ => .error ()
    | .ok (some i) => .ok (rd, some i)
    | .ok none => .ok (apply_field_resolvers frs rd, none)

/-- An `AbstractStorageFixture` instance: its identity `fid` (used by the
storage capabilities), its raw `data` dict, and the resolution cache — `none`
models the absence of the lazily-set `_resolved_data` / `_unresolvable_dep`
attributes, `some (rd, dep)` their values once `_resolve_data` has run. -/
structure Fixture where
  fid : Nat
  data : VDict
  cache : Option (Val × Option Nat)

/-- `core.py::attempt_data_resolution`: run `_resolve_data` unless it has
already run; never re-resolves. -/
def attempt_data_resolution (r : Nat → Val) (frs : List (String × (Val → Val)))
    (f : Fixture) : Except Unit Fixture :=
  match f.cache with
  | some _ => .ok f
  | none =>
    match resolve_data r frs f.data with
    | .error e => .error e
    | .ok c => .ok { f with cache := some c }

/-- The `resolved_data` property: ensure resolution was attempted, then return
the cached structure (together with the updated instance, since the Python
property mutates `self`).  The final `.error` branch is unreachable —
`attempt_data_resolution` always caches on success. -/
def resolved_data (r : Nat → Val) (frs : List (String × (Val → Val)))
    (f : Fixture) : Except Unit (Fixture × Val) :=
  match attempt_data_resolution r frs f with
  | .error e => .error e
  | .ok f1 =>
    match f1.cache with
    | some c => .ok (f1, c.1)
    | none => .error ()

/-- The `resolvable` property: raises `FixtureProgrammingError` (`.error ()`)
when queried before any resolution attempt, else `_unresolvable_dep is None`. -/
def resolvable (f : Fixture) : Except Unit Bool :=
  match f.cache with
  | none => .error ()
  | some c => .ok c.2.isNone

/-- The persistent store, abstracted to the set of record identities present
(the concrete backend owns the real layout). -/
abbrev Store := List Nat

/-- The injected capability set of a fixture kind plus storage backend:
`resolveSelf s i` is what fixture `i`'s `resolve_self()` returns against store
`s` (the default kind returns `Val.unresolvable i`); `fieldResolvers i` the
registered field resolvers of instance `i`'s class; `existsF`/`createF`/
`deleteF` the abstract storage operations. -/
structure Backend where
  resolveSelf : Store → Nat → Val
  fieldResolvers : Nat → List (String × (Val → Val))
  existsF : Store → Fixture → Bool
  createF : Store → Fixture → Store
  deleteF : Store → Fixture → Store

/-- Observable calls into the capability set, for ordering/counting claims:
a data resolution performed for a fixture, and `exists`/`create`/`delete`
invocations. -/
inductive Event : Type where
  | resolveEv (fid : Nat) : Event
  | existsEv (fid : Nat) : Event
  | createEv (fid : Nat) : Event
  | deleteEv (fid : Nat) : Event
deriving DecidableEq

/-- Exceptions escaping `load`/`unload`: `UnresolvedFixtureError` carrying the
first missing dependency, or `FixtureProgrammingError`. -/
inductive LoadErr : Type where
  | unresolved (dep : Nat) : LoadErr
  | progErr : LoadErr
deriving DecidableEq

/-- `core.py::load`: attempt resolution, no-op if `exists()`, raise
`UnresolvedFixtureError(self._unresolvable_dep)` if not resolvable, else
`create()`.  Returns the emitted capability events alongside the outcome
(events before a raised exception have already happened, as in Python). -/
def load (B : Backend) (s : Store) (f : Fixture) :
    List Event × Except LoadErr (Fixture × Store) :=
  let ev0 : List Event := if f.cache.isNone then [.resolveEv f.fid] else []
  match attempt_data_resolution (B.resolveSelf s) (B.fieldResolvers f.fid) f with
  | .error _ => (ev0, .error .progErr)
  | .ok f1 =>
    if B.existsF s f1 then (ev0 ++ [.existsEv f.fid], .ok (f1, s))
    else
      match f1.cache with
      | some (_, some dep) => (ev0 ++ [.existsEv f.fid], .error (.unresolved dep))
      | some (_, none) =>
        (ev0 ++ [.existsEv f.fid, .createEv f.fid], .ok (f1, B.createF s f1))
      | none => (ev0 ++ [.existsEv f.fid], .error .progErr)

/-- `core.py::unload`: attempt resolution, no-op unless `exists()`, else
`delete()` — with no resolvability check whatsoever. -/
def unload (B : Backend) (s : Store) (f : Fixture) :
    List Event × Except LoadErr (Fixture × Store) :=
  let ev0 : List Event := if f.cache.isNone then [.resolveEv f.fid] else []
  match attempt_data_resolution (B.resolveSelf s) (B.fieldResolvers f.fid) f with
  | .error _ => (ev0, .error .progErr)
  | .ok f1 =>
    if B.existsF s f1 then
      (ev0 ++ [.existsEv f.fid, .deleteEv f.fid], .ok (f1, B.deleteF s f1))
    else (ev0 ++ [.existsEv f.fid], .ok (f1, s))

/-- `batch.py::load_fixtures`, including the semantics of its
`@transaction.atomic()` wrapper: the transaction commits whenever the function
returns normally and rolls back only when an exception escapes the decorated
body.  `UnresolvedFixtureError` is caught inside the body and turned into a
normal `return 1`, so the store as mutated so far — including every earlier
fixture's `create()` — is committed (`.ok (s, 1)`).  Only a propagating
exception (`.error ()`, e.g. `FixtureProgrammingError`) rolls back, in which
case the caller keeps its original store. -/
def load_fixtures (B : Backend) (s : Store) :
    List Fixture → List Event × Except Unit (Store × Int)
  | [] => ([], .ok (s, 0))
  | f :: rest =>
    match load B s f with
    | (evs, .error (.unresolved _)) => (evs, .ok (s, 1))
    | (evs, .error .progErr) => (evs, .error ())
    | (evs, .ok (_, s1)) =>
      match load_fixtures B s1 rest with
      | (evs2, out) => (evs ++ evs2, out)

/-- The first loop of `batch.py::unload_fixtures`: `fixture.resolved_data` on
every fixture in batch order, which forces resolution.  No store mutation
occurs here, so every fixture is resolved against the same store `s`. -/
def pre_resolve_loop (B : Backend) (s : Store) :
    List Fixture → List Event × Except Unit (List Fixture)
  | [] => ([], .ok [])
  | f :: rest =>
    let ev0 : List Event := if f.cache.isNone then [.resolveEv f.fid] else []
    match attempt_data_resolution (B.resolveSelf s) (B.fieldResolvers f.fid) f with
    | .error _ => (ev0, .error ())
    | .ok f1 =>
      match pre_resolve_loop B s rest with
      | (evs, .error e) => (ev0 ++ evs, .error e)
      | (evs, .ok fs1) => (ev0 ++ evs, .ok (f1 :: fs1))

/-- The second loop of `batch.py::unload_fixtures`: `fixture.unload()` on each
fixture in order, threading the store through the deletions. -/
def unload_loop (B : Backend) (s : Store) :
    List Fixture → List Event × Except Unit Store
  | [] => ([], .ok s)
  | f :: rest =>
    match unload B s f with
    | (evs, .error _) => (evs, .error ())
    | (evs, .ok (_, s1)) =>
      match unload_loop B s1 rest with
      | (evs2, out) => (evs ++ evs2, out)

/-- `batch.py::unload_fixtures`: pre-resolve every fixture in the batch, then
unload each in order; returns retcode 0 on a normal exit (committed), and
`.error ()` when an exception escapes the atomic body (rolled back). -/
def unload_fixtures (B : Backend) (s : Store) (fs : List Fixture) :
    List Event × Except Unit (Store × Int) :=
  match pre_resolve_loop B s fs with
  | (evs, .error _) => (evs, .error ())
  | (evs, .ok fs1) =>
    match unload_loop B s fs1 with
    | (evs2, .error _) => (evs ++ evs2, .error ())
    | (evs2, .ok s1) => (evs ++ evs2, .ok (s1, 0))

/-! Statement-side helpers: positional access into the modelled containers,
and predicates over the traversable positions of a value (the positions
`walks_on_trees` recurses into: list elements and dict values — not dict keys,
not tuple contents). -/

/-- Length of a modelled list. -/
def vlen : VList → Nat
  | .nil => 0
  | .cons _ tl => vlen tl + 1

/-- The `i`-th element of a modelled list. -/
def vget : VList → Nat → Option Val
  | .nil, _ => none
  | .cons v _, 0 => some v
  | .cons _ tl, n + 1 => vget tl n

/-- Number of entries of a modelled dict. -/
def dlen : VDict → Nat
  | .nil => 0
  | .cons _ _ tl => dlen tl + 1

/-- The key of the `i`-th entry of a modelled dict (declaration order). -/
def dkeyAt : VDict → Nat → Option Val
  | .nil, _ => none
  | .cons k _ _, 0 => some k
  | .cons _ _ tl, n + 1 => dkeyAt tl n

/-- The value of the `i`-th entry of a modelled dict (declaration order). -/
def dvalAt : VDict → Nat → Option Val
  | .nil, _ => none
  | .cons _ v _, 0 => some v
  | .cons _ _ tl, n + 1 => dvalAt tl n

mutual
/-- Spec-side definition, following §4.2 step 2 of the spec: the first
`Unresolvable` marker in depth-first pre-order (mapping values in key
declaration order, sequence elements in index order; first match wins), or
`none` when the structure contains no marker. -/
def firstMarkerSpec : Val → Option Nat
  | .unresolvable i => some i
  | .list vs => firstMarkerSpecL vs
  | .dict kvs => firstMarkerSpecD kvs
  | _ => none

def firstMarkerSpecL : VList → Option Nat
  | .nil => none
  | .cons v tl =>
    match firstMarkerSpec v with
    | some i => some i
    | none => firstMarkerSpecL tl

def firstMarkerSpecD : VDict → Option Nat
  | .nil => none
  | .cons _ v tl =>
    match firstMarkerSpec v with
    | some i => some i
    | none => firstMarkerSpecD tl
end

mutual
/-- Does the value contain a raw fixture instance at a traversable position
(the value itself, a list element, or a dict value, recursively)?  Dict keys
and tuple contents are not traversable. -/
def hasRawFixture : Val → Bool
  | .fixture _ => true
  | .list vs => hasRawFixtureL vs
  | .dict kvs => hasRawFixtureD kvs
  | _ => false

def hasRawFixtureL : VList → Bool
  | .nil => false
  | .cons v tl => hasRawFixture v || hasRawFixtureL tl

def hasRawFixtureD : VDict → Bool
  | .nil => false
  | .cons _ v tl => hasRawFixture v || hasRawFixtureD tl
end

mutual
/-- Does the value contain, at a traversable position, a fixture reference
whose `resolve_self()` under environment `r` returns another fixture instance
(the programming-error condition of §4.2 step 1)? -/
def containsBadRef (r : Nat → Val) : Val → Bool
  | .fixture i => isFixtureVal (r i)
  | .list vs => containsBadRefL r vs
  | .dict kvs => containsBadRefD r kvs
  | _ => false

def containsBadRefL (r : Nat → Val) : VList → Bool
  | .nil => false
  | .cons v tl => containsBadRef r v || containsBadRefL r tl

def containsBadRefD (r : Nat → Val) : VDict → Bool
  | .nil => false
  | .cons _ v tl => containsBadRef r v || containsBadRefD r tl
end

/-- Number of `create()` calls in an event trace. -/
def createCount (evs : List Event) : Nat :=
  evs.countP fun e => match e with | .createEv _ => true | _ => false

/-- Number of `delete()` calls in an event trace. -/
def deleteCount (evs : List Event) : Nat :=
  evs.countP fun e => match e with | .deleteEv _ => true | _ => false

/-- Is this event a data-resolution event? -/
def isResolveEv : Event → Bool
  | .resolveEv _ => true
  | _ => false

/-- Is this event a `delete()` call? -/
def isDeleteEv : Event → Bool
  | .deleteEv _ => true
  | _ => false

/-- A concrete capability set used by the witnesses, behaving like
`ModelFixture` over the abstract store: `resolve_self` returns a concrete
value when the referenced record exists and an `UnresolvableFixture` marker
otherwise; `exists`/`create`/`delete` act on record identities. -/
def demoBackend : Backend where
  resolveSelf := fun s i => if s.contains i then .int (Int.ofNat i) else .unresolvable i
  fieldResolvers := fun _ => []
  existsF := fun s f => s.contains f.fid
  createF := fun s f => f.fid :: s
  deleteF := fun s f => s.erase f.fid

/-- Is this node one the walker recurses into (a Python `list` or `dict`)? -/
def isContainerNode : Val → Bool
  | .list _ => true
  | .dict _ => true
  | _ => false

/-- A visitor used by witnesses: terminate at every fixture reference,
substituting a value that is itself a container holding a fixture reference
(so that recursion into the substituted value would be observable). -/
def demoVisitor : Val → Option Val
  | .fixture i => some (.list (.cons (.fixture i) .nil))
  | _ => none

/-! Theorems. -/

theorem walksList_vlen (fn : Val → Option Val) :
    (vs : VList) → vlen (walksList fn vs) = vlen vs
  | .nil => rfl
  | .cons _ tl => by simp [walksList, vlen, walksList_vlen fn tl]

theorem walksList_vget (fn : Val → Option Val) :
    (vs : VList) → (i : Nat) →
      vget (walksList fn vs) i = (vget vs i).map (walks_on_trees fn)
  | .nil, _ => by simp [walksList, vget]
  | .cons _ _, 0 => by simp [walksList, vget]
  | .cons _ tl, i + 1 => by simp [walksList, vget, walksList_vget fn tl i]

theorem walksDict_dlen (fn : Val → Option Val) :
    (kvs : VDict) → dlen (walksDict fn kvs) = dlen kvs
  | .nil => rfl
  | .cons _ _ tl => by simp [walksDict, dlen, walksDict_dlen fn tl]

theorem walksDict_dkeyAt (fn : Val → Option Val) :
    (kvs : VDict) → (i : Nat) → dkeyAt (walksDict fn kvs) i = dkeyAt kvs i
  | .nil, _ => by simp [walksDict, dkeyAt]
  | .cons _ _ _, 0 => by simp [walksDict, dkeyAt]
  | .cons _ _ tl, i + 1 => by simp [walksDict, dkeyAt, walksDict_dkeyAt fn tl i]

theorem walksDict_dvalAt (fn : Val → Option Val) :
    (kvs : VDict) → (i : Nat) →
      dvalAt (walksDict fn kvs) i = (dvalAt kvs i).map (walks_on_trees fn)
  | .nil, _ => by simp [walksDict, dvalAt]
  | .cons _ _ _, 0 => by simp [walksDict, dvalAt]
  | .cons _ _ tl, i + 1 => by simp [walksDict, dvalAt, walksDict_dvalAt fn tl i]

/-- C2: for every visitor and every finite input, the walker substitutes a
`Terminate(final)` result verbatim at that position without recursing into it
(even a container `final` is returned untouched); a non-terminated list node is
rebuilt element-wise preserving order, a non-terminated dict node is rebuilt
value-wise preserving its keys (in declaration order), and any other
non-terminated node is returned unchanged.  The embedding is purely
functional, so the input itself is never mutated. -/
theorem claim_C2_tree_walker (fn : Val → Option Val) :
    (∀ v final, fn v = some final → walks_on_trees fn v = final) ∧
    (∀ vs, fn (.list vs) = none →
      walks_on_trees fn (.list vs) = .list (walksList fn vs) ∧
      vlen (walksList fn vs) = vlen vs ∧
      ∀ i, vget (walksList fn vs) i = (vget vs i).map (walks_on_trees fn)) ∧
    (∀ kvs, fn (.dict kvs) = none →
      walks_on_trees fn (.dict kvs) = .dict (walksDict fn kvs) ∧
      dlen (walksDict fn kvs) = dlen kvs ∧
      (∀ i, dkeyAt (walksDict fn kvs) i = dkeyAt kvs i) ∧
      ∀ i, dvalAt (walksDict fn kvs) i = (dvalAt kvs i).map (walks_on_trees fn)) ∧
    (∀ v, isContainerNode v = false → fn v = none → walks_on_trees fn v = v) := by
  refine ⟨?_, ?_, ?_, ?_⟩
  · intro v final h
    cases v <;> simp [walks_on_trees, h]
  · intro vs h
    exact ⟨by simp [walks_on_trees, h], walksList_vlen fn vs, walksList_vget fn vs⟩
  · intro kvs h
    exact ⟨by simp [walks_on_trees, h], walksDict_dlen fn kvs,
      walksDict_dkeyAt fn kvs, walksDict_dvalAt fn kvs⟩
  · intro v hc h
    cases v <;> simp_all [walks_on_trees, isContainerNode]

/-- Witness for C2 at concrete inputs: a fixture node is terminated and the
substituted container is kept verbatim (its inner fixture is not visited); a
list is rebuilt element-wise; a scalar passes through unchanged. -/
theorem claim_C2_tree_walker_witness :
    walks_on_trees demoVisitor (.fixture 3) = .list (.cons (.fixture 3) .nil) ∧
    walks_on_trees demoVisitor (.list (.cons (.fixture 3) (.cons (.int 7) .nil)))
      = .list (.cons (.list (.cons (.fixture 3) .nil)) (.cons (.int 7) .nil)) ∧
    vget (walksList demoVisitor (.cons (.fixture 3) .nil)) 0
      = some (.list (.cons (.fixture 3) .nil)) ∧
    walks_on_trees demoVisitor (.int 5) = .int 5 := by
  have h := claim_C2_tree_walker demoVisitor
  refine ⟨h.1 (.fixture 3) _ rfl, ?_, ?_, h.2.2.2 (.int 5) rfl rfl⟩
  · rw [(h.2.1 (.cons (.fixture 3) (.cons (.int 7) .nil)) rfl).1]
    exact rfl
  · rw [(h.2.1 (.cons (.fixture 3) .nil) rfl).2.2 0]
    exact rfl

/-- C10: the walker recurses only into list elements and dict values: dict
keys are reproduced verbatim without being passed to the visitor, and any
container that is not a list or a dict (modelled by `tuple`) is treated as a
scalar and returned unchanged.  Consequently a fixture reference sitting in a
dict key or inside a tuple is never resolved — even under an environment `r`
whose every `resolve_self` result would be a programming error — and the
unresolvable-dependency scan does not detect markers or raw fixtures at such
positions. -/
theorem claim_C10_keys_and_tuples (r : Nat → Val) :
    (∀ (fn : Val → Option Val) vs, fn (.tuple vs) = none →
      walks_on_trees fn (.tuple vs) = .tuple vs) ∧
    (∀ (fn : Val → Option Val) k v tl,
      walksDict fn (.cons k v tl) = .cons k (walks_on_trees fn v) (walksDict fn tl)) ∧
    (∀ vs, resolve_fixtures_in_data r (.tuple vs) = .ok (.tuple vs)) ∧
    (∀ i n, resolve_fixtures_in_data r (.dict (.cons (.fixture i) (.int n) .nil))
      = .ok (.dict (.cons (.fixture i) (.int n) .nil))) ∧
    (∀ vs, find_unresolvable_dependency (.tuple vs) = .ok none) ∧
    (∀ i n, find_unresolvable_dependency (.dict (.cons (.fixture i) (.int n) .nil))
      = .ok none) := by
  refine ⟨?_, ?_, ?_, ?_, ?_, ?_⟩
  · intro fn vs h
    simp [walks_on_trees, h]
  · intro fn k v tl
    rfl
  · intro vs
    rfl
  · intro i n
    rfl
  · intro vs
    rfl
  · intro i n
    rfl

/-- Witness for C10: under the adversarial environment where every fixture
resolves to another fixture (so any actual resolution would raise), a fixture
in a tuple and a fixture used as a dict key survive untouched and undetected. -/
theorem claim_C10_keys_and_tuples_witness :
    walks_on_trees demoVisitor (.tuple (.cons (.fixture 4) .nil))
      = .tuple (.cons (.fixture 4) .nil) ∧
    resolve_fixtures_in_data (fun j => .fixture j) (.tuple (.cons (.fixture 4) .nil))
      = .ok (.tuple (.cons (.fixture 4) .nil)) ∧
    resolve_fixtures_in_data (fun j => .fixture j)
        (.dict (.cons (.fixture 4) (.int 0) .nil))
      = .ok (.dict (.cons (.fixture 4) (.int 0) .nil)) ∧
    find_unresolvable_dependency (.dict (.cons (.fixture 4) (.int 0) .nil))
      = .ok none := by
  have h := claim_C10_keys_and_tuples (fun j => .fixture j)
  exact ⟨h.1 demoVisitor _ rfl, h.2.2.1 _, h.2.2.2.1 4 0, h.2.2.2.2.2 4 0⟩

mutual
/-- On data with no raw fixture at a traversable position, the exception-based
scan of `find_unresolvable_dependency` computes exactly the spec's
"first marker in depth-first pre-order" function. -/
theorem scan_eq : (v : Val) → hasRawFixture v = false →
    walksE raise_if_unresolved v =
      (match firstMarkerSpec v with
       | some i => .error (.unresolvedDep i)
       | none => .ok v)
  | .int _, _ => rfl
  | .str _, _ => rfl
  | .tuple _, _ => rfl
  | .unresolvable _, _ => rfl
  | .fixture _, h => by simp [hasRawFixture] at h
  | .list vs, h => by
    have h' : hasRawFixtureL vs = false := by simpa [hasRawFixture] using h
    have hl := scan_eqL vs h'
    simp only [walksE, raise_if_unresolved, firstMarkerSpec, hl]
    cases hm : firstMarkerSpecL vs <;> simp [hm]
  | .dict kvs, h => by
    have h' : hasRawFixtureD kvs = false := by simpa [hasRawFixture] using h
    have hd := scan_eqD kvs h'
    simp only [walksE, raise_if_unresolved, firstMarkerSpec, hd]
    cases hm : firstMarkerSpecD kvs <;> simp [hm]

theorem scan_eqL : (vs : VList) → hasRawFixtureL vs = false →
    walksEList raise_if_unresolved vs =
      (match firstMarkerSpecL vs with
       | some i => .error (.unresolvedDep i)
       | none => .ok vs)
  | .nil, _ => rfl
  | .cons v tl, h => by
    have h1 : hasRawFixture v = false := by
      simp [hasRawFixtureL, Bool.or_eq_false_iff] at h
      exact h.1
    have h2 : hasRawFixtureL tl = false := by
      simp [hasRawFixtureL, Bool.or_eq_false_iff] at h
      exact h.2
    have hv := scan_eq v h1
    have htl := scan_eqL tl h2
    simp only [walksEList, firstMarkerSpecL, hv]
    cases hm : firstMarkerSpec v with
    | some i => simp [hm]
    | none =>
      simp only [hm, htl]
      cases hm2 : firstMarkerSpecL tl <;> simp [hm2]

theorem scan_eqD : (kvs : VDict) → hasRawFixtureD kvs = false →
    walksEDict raise_if_unresolved kvs =
      (match firstMarkerSpecD kvs with
       | some i => .error (.unresolvedDep i)
       | none => .ok kvs)
  | .nil, _ => rfl
  | .cons k v tl, h => by
    have h1 : hasRawFixture v = false := by
      simp [hasRawFixtureD, Bool.or_eq_false_iff] at h
      exact h.1
    have h2 : hasRawFixtureD tl = false := by
      simp [hasRawFixtureD, Bool.or_eq_false_iff] at h
      exact h.2
    have hv := scan_eq v h1
    have htl := scan_eqD tl h2
    simp only [walksEDict, firstMarkerSpecD, hv]
    cases hm : firstMarkerSpec v with
    | some i => simp [hm]
    | none =>
      simp only [hm, htl]
      cases hm2 : firstMarkerSpecD tl <;> simp [hm2]
end

/-- C5: on resolved data without raw fixture instances,
`find_unresolvable_dependency` records exactly the first `Unresolvable` marker
in depth-first pre-order (dict values in key declaration order, list elements
in index order), or `none` when no marker is present; and the recorded pointer
is what makes the fixture resolvable (`resolvable` is true iff the recorded
dependency is `none`). -/
theorem claim_C5_first_unresolvable (v : Val) (h : hasRawFixture v = false) :
    find_unresolvable_dependency v = .ok (firstMarkerSpec v) ∧
    (∀ fid d rd dep, resolvable ⟨fid, d, some (rd, dep)⟩ = .ok dep.isNone) := by
  constructor
  · simp only [find_unresolvable_dependency, scan_eq v h]
    cases hm : firstMarkerSpec v <;> simp [hm]
  · intro fid d rd dep
    rfl

/-- Witness for C5 at the spec's own example `{"x": [ok, bad], "y": bad2}`:
the recorded dependency is the marker inside `"x"`'s list (fixture 5), not the
later `"y"` marker (fixture 9). -/
theorem claim_C5_first_unresolvable_witness :
    hasRawFixture (.dict (.cons (.str "x")
        (.list (.cons (.int 1) (.cons (.unresolvable 5) .nil)))
        (.cons (.str "y") (.unresolvable 9) .nil))) = false ∧
    find_unresolvable_dependency (.dict (.cons (.str "x")
        (.list (.cons (.int 1) (.cons (.unresolvable 5) .nil)))
        (.cons (.str "y") (.unresolvable 9) .nil))) = .ok (some 5) :=
  ⟨rfl, (claim_C5_first_unresolvable (.dict (.cons (.str "x")
        (.list (.cons (.int 1) (.cons (.unresolvable 5) .nil)))
        (.cons (.str "y") (.unresolvable 9) .nil))) rfl).1⟩

mutual
/-- If the data contains (at a traversable position) a reference whose
`resolve_self` returns another fixture instance, the resolution walk raises
`FixtureProgrammingError`. -/
theorem badref_error (r : Nat → Val) : (v : Val) → containsBadRef r v = true →
    walksE (resolve_visitor r) v = .error ()
  | .int _, h => by simp [containsBadRef] at h
  | .str _, h => by simp [containsBadRef] at h
  | .tuple _, h => by simp [containsBadRef] at h
  | .unresolvable _, h => by simp [containsBadRef] at h
  | .fixture i, h => by
    have h' : isFixtureVal (r i) = true := by simpa [containsBadRef] using h
    simp [walksE, resolve_visitor, h']
  | .list vs, h => by
    have h' : containsBadRefL r vs = true := by simpa [containsBadRef] using h
    simp [walksE, resolve_visitor, badref_errorL r vs h']
  | .dict kvs, h => by
    have h' : containsBadRefD r kvs = true := by simpa [containsBadRef] using h
    simp [walksE, resolve_visitor, badref_errorD r kvs h']

theorem badref_errorL (r : Nat → Val) : (vs : VList) → containsBadRefL r vs = true →
    walksEList (resolve_visitor r) vs = .error ()
  | .cons v tl, h => by
    cases hb : containsBadRef r v with
    | true => simp [walksEList, badref_error r v hb]
    | false =>
      have h' : containsBadRefL r tl = true := by
        simp [containsBadRefL, hb] at h
        exact h
      cases hw : walksE (resolve_visitor r) v with
      | error e => simp [walksEList, hw]
      | ok v1 => simp [walksEList, hw, badref_errorL r tl h']

theorem badref_errorD (r : Nat → Val) : (kvs : VDict) → containsBadRefD r kvs = true →
    walksEDict (resolve_visitor r) kvs = .error ()
  | .cons k v tl, h => by
    cases hb : containsBadRef r v with
    | true => simp [walksEDict, badref_error r v hb]
    | false =>
      have h' : containsBadRefD r tl = true := by
        simp [containsBadRefD, hb] at h
        exact h
      cases hw : walksE (resolve_visitor r) v with
      | error e => simp [walksEDict, hw]
      | ok v1 => simp [walksEDict, hw, badref_errorD r tl h']
end

/-- C8: whenever the data embeds (at a traversable position) a reference whose
`resolve_self()` returns another fixture instance, the resolution pass fails
with a `FixtureProgrammingError` that propagates — out of
`_resolve_fixtures_in_data`, out of `_resolve_data`, and out of
`attempt_data_resolution` — instead of being captured as an `Unresolvable`
marker in the data.  The environment `r` is arbitrary elsewhere, so the engine
never chases the returned reference (no multi-hop resolution). -/
theorem claim_C8_reference_to_reference (r : Nat → Val) :
    (∀ v, containsBadRef r v = true → resolve_fixtures_in_data r v = .error ()) ∧
    (∀ frs d, containsBadRefD r d = true → resolve_data r frs d = .error ()) ∧
    (∀ frs f, f.cache = none → containsBadRefD r f.data = true →
      attempt_data_resolution r frs f = .error ()) := by
  have hrd : ∀ frs d, containsBadRefD r d = true → resolve_data r frs d = .error () := by
    intro frs d h
    have : containsBadRef r (.dict d) = true := by simpa [containsBadRef] using h
    simp [resolve_data, resolve_fixtures_in_data, badref_error r (.dict d) this]
  refine ⟨fun v h => badref_error r v h, hrd, ?_⟩
  intro frs f hc h
  simp [attempt_data_resolution, hc, hrd frs f.data h]

/-- Witness for C8: a fixture whose data references fixture 2, under an
environment where every `resolve_self` returns another fixture instance;
`attempt_data_resolution` raises instead of recording a marker. -/
theorem claim_C8_reference_to_reference_witness :
    attempt_data_resolution (fun _ => .fixture 0) []
      ⟨1, .cons (.str "x") (.fixture 2) .nil, none⟩ = .error () :=
  (claim_C8_reference_to_reference (fun _ => .fixture 0)).2.2 []
    ⟨1, .cons (.str "x") (.fixture 2) .nil, none⟩ rfl rfl

theorem attempt_cached (r : Nat → Val) (frs : List (String × (Val → Val)))
    (f : Fixture) (c : Val × Option Nat) (h : f.cache = some c) :
    attempt_data_resolution r frs f = .ok f := by
  simp [attempt_data_resolution, h]

theorem attempt_cache_isSome (r : Nat → Val) (frs : List (String × (Val → Val)))
    (f f' : Fixture) (h : attempt_data_resolution r frs f = .ok f') :
    f'.cache.isSome := by
  unfold attempt_data_resolution at h
  cases hc : f.cache with
  | some c =>
    rw [hc] at h
    simp only [Except.ok.injEq] at h
    rw [← h, hc]
    rfl
  | none =>
    rw [hc] at h
    cases hr : resolve_data r frs f.data with
    | error e => rw [hr] at h; simp at h
    | ok c =>
      rw [hr] at h
      simp only [Except.ok.injEq] at h
      rw [← h]
      rfl

/-- C3: resolution is attempted at most once per fixture instance.  On an
already-attempted instance, `attempt_data_resolution` returns the instance
unchanged under any environment whatsoever — so no `resolve_self` and no
field resolver can run a second time — and `resolved_data` / `resolvable`
return exactly the cached structure and the cached unresolvable-dependency
pointer.  A successful `load`/`unload` likewise leaves the instance in the
attempted state. -/
theorem claim_C3_resolution_memoized :
    (∀ r frs (f : Fixture) c, f.cache = some c →
      attempt_data_resolution r frs f = .ok f) ∧
    (∀ r frs (f f' : Fixture), attempt_data_resolution r frs f = .ok f' →
      f'.cache.isSome ∧
      (∀ r' frs', attempt_data_resolution r' frs' f' = .ok f') ∧
      (∀ r' frs' rd dep, f'.cache = some (rd, dep) →
        resolved_data r' frs' f' = .ok (f', rd) ∧ resolvable f' = .ok dep.isNone)) ∧
    (∀ B s f f1 s1 evs, load B s f = (evs, .ok (f1, s1)) → f1.cache.isSome) ∧
    (∀ B s f f1 s1 evs, unload B s f = (evs, .ok (f1, s1)) → f1.cache.isSome) := by
  have hstable : ∀ r frs (f : Fixture), f.cache.isSome →
      attempt_data_resolution r frs f = .ok f := by
    intro r frs f h
    cases hc : f.cache with
    | some c => exact attempt_cached r frs f c hc
    | none => rw [hc] at h; simp at h
  have hload : ∀ B s f f1 s1 evs, load B s f = (evs, .ok (f1, s1)) →
      f1.cache.isSome := by
    intro B s f f1 s1 evs h
    unfold load at h
    cases ha : attempt_data_resolution (B.resolveSelf s) (B.fieldResolvers f.fid) f with
    | error e => rw [ha] at h; simp at h
    | ok fx =>
      rw [ha] at h
      have hx := attempt_cache_isSome _ _ _ _ ha
      by_cases he : B.existsF s fx
      · simp only [he, if_true, Prod.mk.injEq, Except.ok.injEq] at h
        obtain ⟨-, h2, -⟩ := h
        rw [← h2]; exact hx
      · simp only [he, if_false, Bool.false_eq_true] at h
        cases hc : fx.cache with
        | none => rw [hc] at h; simp at h
        | some c =>
          rw [hc] at h
          cases hd : c.2 with
          | some dep =>
            rw [show c = (c.1, some dep) from by rw [← hd]] at h
            simp at h
          | none =>
            rw [show c = (c.1, none) from by rw [← hd]] at h
            simp only [Prod.mk.injEq, Except.ok.injEq] at h
            obtain ⟨-, h2, -⟩ := h
            rw [← h2]; exact hx
  have hunload : ∀ B s f f1 s1 evs, unload B s f = (evs, .ok (f1, s1)) →
      f1.cache.isSome := by
    intro B s f f1 s1 evs h
    unfold unload at h
    cases ha : attempt_data_resolution (B.resolveSelf s) (B.fieldResolvers f.fid) f with
    | error e => rw [ha] at h; simp at h
    | ok fx =>
      rw [ha] at h
      have hx := attempt_cache_isSome _ _ _ _ ha
      by_cases he : B.existsF s fx
      · simp only [he, if_true, Prod.mk.injEq, Except.ok.injEq] at h
        obtain ⟨-, h2, -⟩ := h
        rw [← h2]; exact hx
      · simp only [he, if_false, Bool.false_eq_true, Prod.mk.injEq, Except.ok.injEq] at h
        obtain ⟨-, h2, -⟩ := h
        rw [← h2]; exact hx
  refine ⟨attempt_cached, ?_, hload, hunload⟩
  intro r frs f f' h
  have h1 := attempt_cache_isSome r frs f f' h
  refine ⟨h1, fun r' frs' => hstable r' frs' f' h1, ?_⟩
  intro r' frs' rd dep hc
  constructor
  · simp [resolved_data, hstable r' frs' f' h1, hc]
  · simp [resolvable, hc]

/-- Witness for C3: a first attempt resolves and caches; a second attempt,
under a hostile environment whose `resolve_self` results and field resolvers
would all raise programming errors if they ran, still returns the identical
cached instance. -/
theorem claim_C3_resolution_memoized_witness :
    attempt_data_resolution (fun i => .unresolvable i) []
      ⟨1, .cons (.str "x") (.fixture 2) .nil, none⟩
      = .ok ⟨1, .cons (.str "x") (.fixture 2) .nil,
          some (.dict (.cons (.str "x") (.unresolvable 2) .nil), some 2)⟩ ∧
    attempt_data_resolution (fun _ => .fixture 9) [("x", fun _ => .fixture 9)]
      ⟨1, .cons (.str "x") (.fixture 2) .nil,
        some (.dict (.cons (.str "x") (.unresolvable 2) .nil), some 2)⟩
      = .ok ⟨1, .cons (.str "x") (.fixture 2) .nil,
          some (.dict (.cons (.str "x") (.unresolvable 2) .nil), some 2)⟩ := by
  refine ⟨rfl, ?_⟩
  exact (claim_C3_resolution_memoized.2.1 (fun i => .unresolvable i) []
    ⟨1, .cons (.str "x") (.fixture 2) .nil, none⟩
    ⟨1, .cons (.str "x") (.fixture 2) .nil,
      some (.dict (.cons (.str "x") (.unresolvable 2) .nil), some 2)⟩ rfl).2.1
    (fun _ => .fixture 9) [("x", fun _ => .fixture 9)]

/-- C4: `load()` first ensures resolution has been attempted, then takes
exactly one of three branches: if `exists()` is true it performs no store
mutation and no `create()`; if `exists()` is false and the fixture is
unresolvable it raises `UnresolvedFixtureError` carrying the recorded first
missing dependency, without calling `create()`; if `exists()` is false and the
fixture is resolvable it calls `create()` exactly once. -/
theorem claim_C4_load_state_machine (B : Backend) (s : Store) (f f1 : Fixture)
    (ha : attempt_data_resolution (B.resolveSelf s) (B.fieldResolvers f.fid) f = .ok f1) :
    f1.cache.isSome ∧
    (B.existsF s f1 = true →
      load B s f = ((if f.cache.isNone then [Event.resolveEv f.fid] else []) ++
        [.existsEv f.fid], .ok (f1, s)) ∧
      createCount (load B s f).1 = 0) ∧
    (∀ rd dep, B.existsF s f1 = false → f1.cache = some (rd, some dep) →
      load B s f = ((if f.cache.isNone then [Event.resolveEv f.fid] else []) ++
        [.existsEv f.fid], .error (.unresolved dep)) ∧
      createCount (load B s f).1 = 0) ∧
    (∀ rd, B.existsF s f1 = false → f1.cache = some (rd, none) →
      load B s f = ((if f.cache.isNone then [Event.resolveEv f.fid] else []) ++
        [.existsEv f.fid, .createEv f.fid], .ok (f1, B.createF s f1)) ∧
      createCount (load B s f).1 = 1) := by
  refine ⟨attempt_cache_isSome _ _ _ _ ha, ?_, ?_, ?_⟩
  · intro he
    have hl : load B s f = ((if f.cache.isNone then [Event.resolveEv f.fid] else []) ++
        [.existsEv f.fid], .ok (f1, s)) := by
      simp [load, ha, he]
    refine ⟨hl, ?_⟩
    rw [hl]
    cases hci : f.cache.isNone <;>
      simp [hci, createCount, List.countP_append, List.countP_cons]
  · intro rd dep he hc
    have hl : load B s f = ((if f.cache.isNone then [Event.resolveEv f.fid] else []) ++
        [.existsEv f.fid], .error (.unresolved dep)) := by
      simp [load, ha, he, hc]
    refine ⟨hl, ?_⟩
    rw [hl]
    cases hci : f.cache.isNone <;>
      simp [hci, createCount, List.countP_append, List.countP_cons]
  · intro rd he hc
    have hl : load B s f = ((if f.cache.isNone then [Event.resolveEv f.fid] else []) ++
        [.existsEv f.fid, .createEv f.fid], .ok (f1, B.createF s f1)) := by
      simp [load, ha, he, hc]
    refine ⟨hl, ?_⟩
    rw [hl]
    cases hci : f.cache.isNone <;>
      simp [hci, createCount, List.countP_append, List.countP_cons]

/-- Witness for C4 against the demo backend: an existing fixture loads as a
no-op; an absent unresolvable fixture raises `UnresolvedFixtureError` carrying
dependency 9 with zero `create()` calls; an absent resolvable fixture is
created exactly once. -/
theorem claim_C4_load_state_machine_witness :
    load demoBackend [1] ⟨1, .nil, none⟩
      = ([.resolveEv 1, .existsEv 1], .ok (⟨1, .nil, some (.dict .nil, none)⟩, [1])) ∧
    load demoBackend [] ⟨2, .cons (.str "x") (.fixture 9) .nil, none⟩
      = ([.resolveEv 2, .existsEv 2], .error (.unresolved 9)) ∧
    createCount (load demoBackend [] ⟨2, .cons (.str "x") (.fixture 9) .nil, none⟩).1 = 0 ∧
    load demoBackend [] ⟨1, .nil, none⟩
      = ([.resolveEv 1, .existsEv 1, .createEv 1],
         .ok (⟨1, .nil, some (.dict .nil, none)⟩, [1])) ∧
    createCount (load demoBackend [] ⟨1, .nil, none⟩).1 = 1 := by
  have h1 := claim_C4_load_state_machine demoBackend [1] ⟨1, .nil, none⟩
    ⟨1, .nil, some (.dict .nil, none)⟩ rfl
  have h2 := claim_C4_load_state_machine demoBackend []
    ⟨2, .cons (.str "x") (.fixture 9) .nil, none⟩
    ⟨2, .cons (.str "x") (.fixture 9) .nil,
      some (.dict (.cons (.str "x") (.unresolvable 9) .nil), some 9)⟩ rfl
  have h3 := claim_C4_load_state_machine demoBackend [] ⟨1, .nil, none⟩
    ⟨1, .nil, some (.dict .nil, none)⟩ rfl
  exact ⟨(h1.2.1 rfl).1,
    (h2.2.2.1 (.dict (.cons (.str "x") (.unresolvable 9) .nil)) 9 rfl rfl).1,
    (h2.2.2.1 (.dict (.cons (.str "x") (.unresolvable 9) .nil)) 9 rfl rfl).2,
    (h3.2.2.2 (.dict .nil) rfl rfl).1,
    (h3.2.2.2 (.dict .nil) rfl rfl).2⟩

/-- C7: `unload()` first ensures resolution has been attempted; when
`exists()` is false it performs no store mutation and no `delete()`; otherwise
it calls `delete()` exactly once — with no resolvability condition anywhere,
so this holds in particular for a fixture with a recorded unresolvable
dependency that still exists in the store. -/
theorem claim_C7_unload_state_machine (B : Backend) (s : Store) (f f1 : Fixture)
    (ha : attempt_data_resolution (B.resolveSelf s) (B.fieldResolvers f.fid) f = .ok f1) :
    f1.cache.isSome ∧
    (B.existsF s f1 = false →
      unload B s f = ((if f.cache.isNone then [Event.resolveEv f.fid] else []) ++
        [.existsEv f.fid], .ok (f1, s)) ∧
      deleteCount (unload B s f).1 = 0) ∧
    (B.existsF s f1 = true →
      unload B s f = ((if f.cache.isNone then [Event.resolveEv f.fid] else []) ++
        [.existsEv f.fid, .deleteEv f.fid], .ok (f1, B.deleteF s f1)) ∧
      deleteCount (unload B s f).1 = 1) := by
  refine ⟨attempt_cache_isSome _ _ _ _ ha, ?_, ?_⟩
  · intro he
    have hl : unload B s f = ((if f.cache.isNone then [Event.resolveEv f.fid] else []) ++
        [.existsEv f.fid], .ok (f1, s)) := by
      simp [unload, ha, he]
    refine ⟨hl, ?_⟩
    rw [hl]
    cases hci : f.cache.isNone <;>
      simp [hci, deleteCount, List.countP_append, List.countP_cons]
  · intro he
    have hl : unload B s f = ((if f.cache.isNone then [Event.resolveEv f.fid] else []) ++
        [.existsEv f.fid, .deleteEv f.fid], .ok (f1, B.deleteF s f1)) := by
      simp [unload, ha, he]
    refine ⟨hl, ?_⟩
    rw [hl]
    cases hci : f.cache.isNone <;>
      simp [hci, deleteCount, List.countP_append, List.countP_cons]

/-- Witness for C7: the spec's tolerant-unload scenario — a fixture whose
non-identifying field `"x"` is unresolvable (dependency 9 is not in the
store) but which itself exists in the store is deleted exactly once; and an
absent fixture unloads as a no-op. -/
theorem claim_C7_unload_state_machine_witness :
    unload demoBackend [1] ⟨1, .cons (.str "x") (.fixture 9) .nil, none⟩
      = ([.resolveEv 1, .existsEv 1, .deleteEv 1],
         .ok (⟨1, .cons (.str "x") (.fixture 9) .nil,
           some (.dict (.cons (.str "x") (.unresolvable 9) .nil), some 9)⟩, [])) ∧
    deleteCount (unload demoBackend [1] ⟨1, .cons (.str "x") (.fixture 9) .nil, none⟩).1 = 1 ∧
    unload demoBackend [] ⟨3, .nil, none⟩
      = ([.resolveEv 3, .existsEv 3], .ok (⟨3, .nil, some (.dict .nil, none)⟩, [])) ∧
    deleteCount (unload demoBackend [] ⟨3, .nil, none⟩).1 = 0 := by
  have h1 := claim_C7_unload_state_machine demoBackend [1]
    ⟨1, .cons (.str "x") (.fixture 9) .nil, none⟩
    ⟨1, .cons (.str "x") (.fixture 9) .nil,
      some (.dict (.cons (.str "x") (.unresolvable 9) .nil), some 9)⟩ rfl
  have h2 := claim_C7_unload_state_machine demoBackend [] ⟨3, .nil, none⟩
    ⟨3, .nil, some (.dict .nil, none)⟩ rfl
  exact ⟨(h1.2.2 rfl).1, (h1.2.2 rfl).2, (h2.2.1 rfl).1, (h2.2.1 rfl).2⟩

/-- C1 (code bug): `load_fixtures([A, B])` with A creatable and B
unresolvable.  A's `create()` runs, then B's `load()` raises
`UnresolvedFixtureError`, which `load_fixtures` catches before returning
retcode 1 — a normal return, so the `@transaction.atomic()` wrapper commits
the store, which still contains A's freshly created record (id 1).  The
spec's "abort the entire scope (nothing committed)" does not hold: only an
exception escaping the decorated body would roll the transaction back. -/
theorem claim_C1_load_batch_commits_partial :
    load_fixtures demoBackend []
      [⟨1, .nil, none⟩, ⟨2, .cons (.str "x") (.fixture 9) .nil, none⟩]
      = ([.resolveEv 1, .existsEv 1, .createEv 1, .resolveEv 2, .existsEv 2],
         .ok ([1], 1)) ∧
    ([1] : Store).contains 1 = true ∧
    createCount [Event.resolveEv 1, .existsEv 1, .createEv 1, .resolveEv 2, .existsEv 2]
      = 1 :=
  ⟨rfl, rfl, rfl⟩

mutual
/-- If every `resolve_self` result is free of raw fixtures at traversable
positions, so is the output of the resolution walk. -/
theorem resolve_nofix (r : Nat → Val) (hr : ∀ i, hasRawFixture (r i) = false) :
    (v : Val) → (w : Val) → walksE (resolve_visitor r) v = .ok w →
      hasRawFixture w = false
  | .int n, w, h => by
    simp only [walksE, resolve_visitor, Except.ok.injEq] at h
    rw [← h]
    rfl
  | .str s, w, h => by
    simp only [walksE, resolve_visitor, Except.ok.injEq] at h
    rw [← h]
    rfl
  | .tuple vs, w, h => by
    simp only [walksE, resolve_visitor, Except.ok.injEq] at h
    rw [← h]
    rfl
  | .unresolvable i, w, h => by
    simp only [walksE, resolve_visitor, Except.ok.injEq] at h
    rw [← h]
    rfl
  | .fixture i, w, h => by
    cases hb : isFixtureVal (r i) with
    | true => simp [walksE, resolve_visitor, hb] at h
    | false =>
      simp only [walksE, resolve_visitor, hb, Bool.false_eq_true, if_false,
        Except.ok.injEq] at h
      rw [← h]
      exact hr i
  | .list vs, w, h => by
    cases hw : walksEList (resolve_visitor r) vs with
    | error e => simp [walksE, resolve_visitor, hw] at h
    | ok vs1 =>
      simp only [walksE, resolve_visitor, hw, Except.ok.injEq] at h
      rw [← h]
      simpa [hasRawFixture] using resolve_nofixL r hr vs vs1 hw
  | .dict kvs, w, h => by
    cases hw : walksEDict (resolve_visitor r) kvs with
    | error e => simp [walksE, resolve_visitor, hw] at h
    | ok kvs1 =>
      simp only [walksE, resolve_visitor, hw, Except.ok.injEq] at h
      rw [← h]
      simpa [hasRawFixture] using resolve_nofixD r hr kvs kvs1 hw

theorem resolve_nofixL (r : Nat → Val) (hr : ∀ i, hasRawFixture (r i) = false) :
    (vs : VList) → (ws : VList) → walksEList (resolve_visitor r) vs = .ok ws →
      hasRawFixtureL ws = false
  | .nil, ws, h => by
    simp only [walksEList, Except.ok.injEq] at h
    rw [← h]
    rfl
  | .cons v tl, ws, h => by
    cases hv : walksE (resolve_visitor r) v with
    | error e => simp [walksEList, hv] at h
    | ok v1 =>
      cases htl : walksEList (resolve_visitor r) tl with
      | error e => simp [walksEList, hv, htl] at h
      | ok tl1 =>
        simp only [walksEList, hv, htl, Except.ok.injEq] at h
        rw [← h]
        simp [hasRawFixtureL, resolve_nofix r hr v v1 hv,
          resolve_nofixL r hr tl tl1 htl]

theorem resolve_nofixD (r : Nat → Val) (hr : ∀ i, hasRawFixture (r i) = false) :
    (kvs : VDict) → (ws : VDict) → walksEDict (resolve_visitor r) kvs = .ok ws →
      hasRawFixtureD ws = false
  | .nil, ws, h => by
    simp only [walksEDict, Except.ok.injEq] at h
    rw [← h]
    rfl
  | .cons k v tl, ws, h => by
    cases hv : walksE (resolve_visitor r) v with
    | error e => simp [walksEDict, hv] at h
    | ok v1 =>
      cases htl : walksEDict (resolve_visitor r) tl with
      | error e => simp [walksEDict, hv, htl] at h
      | ok tl1 =>
        simp only [walksEDict, hv, htl, Except.ok.injEq] at h
        rw [← h]
        simp [hasRawFixtureD, resolve_nofix r hr v v1 hv,
          resolve_nofixD r hr tl tl1 htl]
end

theorem dict_set_apply_nofix (field : String) (g : Val → Val)
    (hg : ∀ v, hasRawFixture (g v) = false) :
    (d : VDict) → hasRawFixtureD d = false →
      hasRawFixtureD (dict_set_apply field g d) = false
  | .nil, h => h
  | .cons k v tl, h => by
    have h' := h
    simp only [hasRawFixtureD, Bool.or_eq_false_iff] at h'
    cases hk : isStrKey field k with
    | true =>
      simp [dict_set_apply, hk, hasRawFixtureD, hg v, h'.2]
    | false =>
      simp [dict_set_apply, hk, hasRawFixtureD, h'.1,
        dict_set_apply_nofix field g hg tl h'.2]

theorem apply_frs_nofix :
    (frs : List (String × (Val → Val))) →
    (∀ p ∈ frs, ∀ v, hasRawFixture (p.2 v) = false) →
    (d : VDict) → hasRawFixtureD d = false →
      hasRawFixtureD (frs.foldl (fun acc p => dict_set_apply p.1 p.2 acc) d) = false
  | [], _, _, h => h
  | p :: rest, hfrs, d, h => by
    simp only [List.foldl_cons]
    exact apply_frs_nofix rest (fun q hq => hfrs q (List.mem_cons_of_mem p hq)) _
      (dict_set_apply_nofix p.1 p.2 (hfrs p (List.mem_cons_self p rest)) d h)

theorem resolve_data_nofix (r : Nat → Val) (frs : List (String × (Val → Val)))
    (d : VDict) (rd : Val) (dep : Option Nat)
    (hr : ∀ i, hasRawFixture (r i) = false)
    (hfrs : ∀ p ∈ frs, ∀ v, hasRawFixture (p.2 v) = false)
    (h : resolve_data r frs d = .ok (rd, dep)) : hasRawFixture rd = false := by
  unfold resolve_data resolve_fixtures_in_data at h
  cases hw : walksEDict (resolve_visitor r) d with
  | error e => simp [walksE, resolve_visitor, hw] at h
  | ok d1 =>
    have hd1 : hasRawFixtureD d1 = false := resolve_nofixD r hr d d1 hw
    simp only [walksE, resolve_visitor, hw] at h
    cases hf : find_unresolvable_dependency (.dict d1) with
    | error e => rw [hf] at h; simp at h
    | ok o =>
      rw [hf] at h
      cases o with
      | some i =>
        simp only [Except.ok.injEq, Prod.mk.injEq] at h
        rw [← h.1]
        simpa [hasRawFixture] using hd1
      | none =>
        simp only [Except.ok.injEq, Prod.mk.injEq] at h
        rw [← h.1]
        simpa [apply_field_resolvers, hasRawFixture] using
          apply_frs_nofix frs hfrs d1 hd1

/-- C9 counterexample: the claim as stated is false on the code.  Resolving
data `{"a": 1}` with a registered field resolver for `"a"` that returns a raw
fixture completes without a programming error (the unresolvable scan runs
before field resolvers and the resolver output is never re-checked), yet the
cached resolved data contains a raw fixture instance at a traversable
position. -/
theorem claim_C9_counterexample :
    attempt_data_resolution (fun i => .unresolvable i) [("a", fun _ => .fixture 7)]
      ⟨0, .cons (.str "a") (.int 1) .nil, none⟩
      = .ok ⟨0, .cons (.str "a") (.int 1) .nil,
          some (.dict (.cons (.str "a") (.fixture 7) .nil), none)⟩ ∧
    hasRawFixture (.dict (.cons (.str "a") (.fixture 7) .nil)) = true :=
  ⟨rfl, rfl⟩

/-- C9 (amended): provided every `resolve_self` result and every registered
field resolver output is free of raw fixture instances at traversable
positions, a fixture freshly resolved without a programming error caches
resolved data with no raw fixture instance at any traversable position —
every embedded reference having been replaced by a concrete value or an
`Unresolvable` marker — in the resolvable and the unresolvable case alike. -/
theorem claim_C9_no_raw_fixtures (r : Nat → Val) (frs : List (String × (Val → Val)))
    (f f1 : Fixture) (rd : Val) (dep : Option Nat)
    (hr : ∀ i, hasRawFixture (r i) = false)
    (hfrs : ∀ p ∈ frs, ∀ v, hasRawFixture (p.2 v) = false)
    (hfresh : f.cache = none)
    (ha : attempt_data_resolution r frs f = .ok f1)
    (hc : f1.cache = some (rd, dep)) :
    hasRawFixture rd = false := by
  unfold attempt_data_resolution at ha
  rw [hfresh] at ha
  cases hrd : resolve_data r frs f.data with
  | error e => rw [hrd] at ha; simp at ha
  | ok c =>
    rw [hrd] at ha
    simp only [Except.ok.injEq] at ha
    rw [← ha] at hc
    simp only [Option.some.injEq] at hc
    rw [hc] at hrd
    exact resolve_data_nofix r frs f.data rd dep hr hfrs hrd

/-- Witness for the amended C9: a fixture whose reference is unresolvable, a
benign field resolver; the cached structure (marker included) carries no raw
fixture. -/
theorem claim_C9_no_raw_fixtures_witness :
    hasRawFixture (.dict (.cons (.str "a") (.unresolvable 3) .nil)) = false :=
  claim_C9_no_raw_fixtures (fun i => .unresolvable i) [("a", fun _ => .int 5)]
    ⟨0, .cons (.str "a") (.fixture 3) .nil, none⟩
    ⟨0, .cons (.str "a") (.fixture 3) .nil,
      some (.dict (.cons (.str "a") (.unresolvable 3) .nil), some 3)⟩
    (.dict (.cons (.str "a") (.unresolvable 3) .nil)) (some 3)
    (fun i => rfl)
    (by
      intro p hp v
      rw [List.mem_singleton] at hp
      subst hp
      rfl)
    rfl rfl rfl

theorem attempt_stable (r : Nat → Val) (frs : List (String × (Val → Val)))
    (f : Fixture) (h : f.cache.isSome) :
    attempt_data_resolution r frs f = .ok f := by
  cases hc : f.cache with
  | some c => exact attempt_cached r frs f c hc
  | none => rw [hc] at h; simp at h

theorem pre_resolve_events (B : Backend) (s : Store) :
    (fs : List Fixture) → ∀ e ∈ (pre_resolve_loop B s fs).1, isResolveEv e = true
  | [] => by simp [pre_resolve_loop]
  | f :: rest => by
    intro e he
    have hev0 : ∀ e' ∈ (if f.cache.isNone then [Event.resolveEv f.fid]
        else ([] : List Event)), isResolveEv e' = true := by
      intro e' h'
      cases hc : f.cache.isNone with
      | false => rw [hc] at h'; simp at h'
      | true =>
        rw [hc] at h'
        simp only [if_true, List.mem_singleton] at h'
        rw [h']
        rfl
    simp only [pre_resolve_loop] at he
    cases ha : attempt_data_resolution (B.resolveSelf s) (B.fieldResolvers f.fid) f with
    | error e' =>
      rw [ha] at he
      exact hev0 e he
    | ok fx =>
      rw [ha] at he
      cases hp : pre_resolve_loop B s rest with
      | mk evs1 r1 =>
        rw [hp] at he
        have hin : e ∈ (if f.cache.isNone then [Event.resolveEv f.fid]
            else ([] : List Event)) ++ evs1 := by
          cases r1 <;> simpa using he
        rcases List.mem_append.mp hin with h3 | h3
        · exact hev0 e h3
        · have := pre_resolve_events B s rest e (by rw [hp]; exact h3)
          exact this

theorem pre_resolve_ok (B : Backend) (s : Store) :
    (fs fs1 : List Fixture) → (evs : List Event) →
    pre_resolve_loop B s fs = (evs, .ok fs1) →
    (∀ f1 ∈ fs1, f1.cache.isSome) ∧ fs1.length = fs.length
  | [], fs1, evs, h => by
    simp only [pre_resolve_loop, Prod.mk.injEq, Except.ok.injEq] at h
    obtain ⟨-, h2⟩ := h
    rw [← h2]
    simp
  | f :: rest, fs1, evs, h => by
    simp only [pre_resolve_loop] at h
    cases ha : attempt_data_resolution (B.resolveSelf s) (B.fieldResolvers f.fid) f with
    | error e' => rw [ha] at h; simp at h
    | ok fx =>
      rw [ha] at h
      cases hp : pre_resolve_loop B s rest with
      | mk evs' r1 =>
        rw [hp] at h
        cases r1 with
        | error e' => simp at h
        | ok fs1' =>
          simp only [Prod.mk.injEq, Except.ok.injEq] at h
          obtain ⟨-, h2⟩ := h
          have iH := pre_resolve_ok B s rest fs1' evs' hp
          rw [← h2]
          constructor
          · intro f1 hf1
            rcases List.mem_cons.mp hf1 with h3 | h3
            · rw [h3]; exact attempt_cache_isSome _ _ _ _ ha
            · exact iH.1 f1 h3
          · simp [iH.2]

theorem unload_cached (B : Backend) (s : Store) (f : Fixture) (h : f.cache.isSome) :
    unload B s f =
      (if B.existsF s f then
        ([.existsEv f.fid, .deleteEv f.fid], .ok (f, B.deleteF s f))
       else ([.existsEv f.fid], .ok (f, s))) := by
  have ha := attempt_stable (B.resolveSelf s) (B.fieldResolvers f.fid) f h
  have hci : f.cache.isNone = false := by
    cases hc : f.cache with
    | none => rw [hc] at h; simp at h
    | some c => rfl
  by_cases he : B.existsF s f
  · simp [unload, ha, he, hci]
  · simp [unload, ha, he, hci]

theorem unload_loop_cons_ok (B : Backend) (s : Store) (f : Fixture)
    (rest : List Fixture) (evs : List Event) (f1 : Fixture) (s1 : Store)
    (hu : unload B s f = (evs, .ok (f1, s1))) :
    unload_loop B s (f :: rest)
      = (evs ++ (unload_loop B s1 rest).1, (unload_loop B s1 rest).2) := by
  cases hr : unload_loop B s1 rest with
  | mk evs2 r2 => simp [unload_loop, hu, hr]

theorem unload_fixtures_eq_err (B : Backend) (s : Store) (fs : List Fixture)
    (evs1 : List Event) (e : Unit)
    (hp : pre_resolve_loop B s fs = (evs1, .error e)) :
    unload_fixtures B s fs = (evs1, .error ()) := by
  simp [unload_fixtures, hp]

theorem unload_fixtures_eq_ok (B : Backend) (s : Store) (fs : List Fixture)
    (evs1 : List Event) (fs1 : List Fixture)
    (hp : pre_resolve_loop B s fs = (evs1, .ok fs1)) :
    unload_fixtures B s fs
      = (evs1 ++ (unload_loop B s fs1).1,
         match (unload_loop B s fs1).2 with
         | .error _ => .error ()
         | .ok s1 => .ok (s1, 0)) := by
  cases hu : unload_loop B s fs1 with
  | mk evs2 r2 => cases r2 <;> simp [unload_fixtures, hp, hu]

theorem unload_loop_events (B : Backend) :
    (fs : List Fixture) → (s : Store) → (∀ f ∈ fs, f.cache.isSome) →
    ∀ e ∈ (unload_loop B s fs).1, isResolveEv e = false
  | [], s, _ => by simp [unload_loop]
  | f :: rest, s, hall => by
    intro e he
    have hf : f.cache.isSome := hall f (List.mem_cons_self f rest)
    have hrest : ∀ g ∈ rest, g.cache.isSome := fun g hg =>
      hall g (List.mem_cons_of_mem f hg)
    have hunl := unload_cached B s f hf
    by_cases hex : B.existsF s f
    · rw [if_pos hex] at hunl
      rw [unload_loop_cons_ok B s f rest
        [Event.existsEv f.fid, Event.deleteEv f.fid] f (B.deleteF s f) hunl] at he
      have he' : e ∈ [Event.existsEv f.fid, Event.deleteEv f.fid] ++
          (unload_loop B (B.deleteF s f) rest).1 := he
      rcases List.mem_append.mp he' with h3 | h3
      · rcases List.mem_cons.mp h3 with h4 | h4
        · rw [h4]; rfl
        · rw [List.mem_singleton.mp h4]; rfl
      · exact unload_loop_events B rest (B.deleteF s f) hrest e h3
    · rw [if_neg hex] at hunl
      rw [unload_loop_cons_ok B s f rest [Event.existsEv f.fid] f s hunl] at he
      have he' : e ∈ [Event.existsEv f.fid] ++ (unload_loop B s rest).1 := he
      rcases List.mem_append.mp he' with h3 | h3
      · rw [List.mem_singleton.mp h3]; rfl
      · exact unload_loop_events B rest s hrest e h3

theorem resolve_before_delete (l1 l2 : List Event)
    (h1 : ∀ e ∈ l1, isResolveEv e = true)
    (h2 : ∀ e ∈ l2, isResolveEv e = false)
    (i j a b : Nat)
    (hi : (l1 ++ l2)[i]? = some (.resolveEv a))
    (hj : (l1 ++ l2)[j]? = some (.deleteEv b)) : i < j := by
  have hil : i < l1.length := by
    by_contra hni
    rw [List.getElem?_append] at hi
    rw [if_neg hni] at hi
    have hmem := List.getElem?_mem hi
    have := h2 _ hmem
    simp [isResolveEv] at this
  have hjl : l1.length ≤ j := by
    by_contra hnj
    push_neg at hnj
    rw [List.getElem?_append] at hj
    rw [if_pos hnj] at hj
    have hmem := List.getElem?_mem hj
    have := h1 _ hmem
    simp [isResolveEv] at this
  exact lt_of_lt_of_le hil hjl

/-- C6: `unload_fixtures` forces resolution on every fixture of the batch, in
batch order, before any deletion: in the capability-event trace every
data-resolution event strictly precedes every `delete()` event, and the
pre-resolution pass leaves every fixture of the batch (one per input fixture)
with its resolution attempted and cached before the unload pass starts.
Resolution reads but never mutates the store, so every fixture is resolved
against the batch's initial store. -/
theorem claim_C6_unload_preresolves_all (B : Backend) (s : Store)
    (fs : List Fixture) (evs : List Event) (out : Except Unit (Store × Int))
    (h : unload_fixtures B s fs = (evs, out)) :
    (∀ (i j a b : Nat), evs[i]? = some (Event.resolveEv a) →
      evs[j]? = some (Event.deleteEv b) → i < j) ∧
    (∀ evs1 fs1, pre_resolve_loop B s fs = (evs1, .ok fs1) →
      (∀ f1 ∈ fs1, f1.cache.isSome) ∧ fs1.length = fs.length) := by
  constructor
  · intro i j a b hi hj
    cases hp : pre_resolve_loop B s fs with
    | mk evs1 r1 =>
      have h1 : ∀ e ∈ evs1, isResolveEv e = true := by
        intro e he
        exact pre_resolve_events B s fs e (by rw [hp]; exact he)
      cases r1 with
      | error e =>
        have hval := unload_fixtures_eq_err B s fs evs1 e hp
        have hpair := hval.symm.trans h
        simp only [Prod.mk.injEq] at hpair
        obtain ⟨hevs, -⟩ := hpair
        rw [← hevs] at hj
        have := h1 _ (List.getElem?_mem hj)
        simp [isResolveEv] at this
      | ok fs1 =>
        have hcached := (pre_resolve_ok B s fs fs1 evs1 hp).1
        have hval := unload_fixtures_eq_ok B s fs evs1 fs1 hp
        have hpair := hval.symm.trans h
        have hevs : evs1 ++ (unload_loop B s fs1).1 = evs :=
          congrArg Prod.fst hpair
        have h2 : ∀ e ∈ (unload_loop B s fs1).1, isResolveEv e = false :=
          fun e he => unload_loop_events B fs1 s hcached e he
        rw [← hevs] at hi hj
        exact resolve_before_delete evs1 (unload_loop B s fs1).1 h1 h2 i j a b hi hj
  · intro evs1 fs1 hp
    exact pre_resolve_ok B s fs fs1 evs1 hp

/-- Witness for C6: the spec's end-to-end scenario — A (id 1) references B
(id 2), both present in the store; `unload_fixtures` deletes both, with both
resolution events (indices 0 and 1) preceding both deletion events (indices 3
and 5). -/
theorem claim_C6_unload_preresolves_all_witness :
    unload_fixtures demoBackend [1, 2]
      [⟨1, .cons (.str "ref") (.fixture 2) .nil, none⟩, ⟨2, .nil, none⟩]
      = ([.resolveEv 1, .resolveEv 2, .existsEv 1, .deleteEv 1,
          .existsEv 2, .deleteEv 2], .ok ([], 0)) ∧
    (0 : Nat) < 3 ∧ (1 : Nat) < 5 := by
  have h := claim_C6_unload_preresolves_all demoBackend [1, 2]
    [⟨1, .cons (.str "ref") (.fixture 2) .nil, none⟩, ⟨2, .nil, none⟩]
    [.resolveEv 1, .resolveEv 2, .existsEv 1, .deleteEv 1, .existsEv 2, .deleteEv 2]
    (.ok ([], 0)) rfl
  exact ⟨rfl, h.1 0 3 1 1 rfl rfl, h.1 1 5 2 2 rfl rfl⟩

end Prepop

